import Mathlib

/-!
Verification of the molecular-property-prediction utility module
(`utils.py`): data loader, receptor dataset builder, seed setter,
early-stopping trainer, plotting helpers.

External collaborators (CSV parsing, molecule parsing, featurization
algorithms, the numeric std computation, the numpy permutation generator,
the underlying model's fit/evaluate) are modelled as explicit function
parameters; everything this module itself computes is embedded directly.
Real numbers are modelled by `ℚ`.
-/

/-! ## Early-stopping trainer (`fit_best_model`)

The injected model is abstracted by two score functions: `vs n` is the
validation score `model.evaluate(valid_dataset, ...)` returns after the
model has been fit for `n` epochs, and `ts n` the training score.  The
loop state carries exactly the Python locals (`best_score`, `best_epoch`,
`list_scores`, `wait`) plus the observable effects: the list of checkpoint
writes `(path, epoch)`, whether the `break` fired, and how many
`model.fit` calls ran. -/

structure FitState where
  bestScore : Option ℚ
  bestEpoch : Option Nat
  listScores : List (Nat × ℚ × ℚ)
  wait : Nat
  checkpoints : List (String × Nat)
  earlyStopped : Bool
  fitCalls : Nat
deriving Repr, DecidableEq

def initFitState : FitState :=
  { bestScore := none, bestEpoch := none, listScores := [], wait := 0,
    checkpoints := [], earlyStopped := false, fitCalls := 0 }

/-- One iteration of the `for epoch in range(nb_epoch)` body at 0-based
`epoch`: `model.fit(..., nb_epoch=1)`, then, when `(epoch+1) % interval == 0`,
evaluate, append to `list_scores`, and run the improvement bookkeeping;
`earlyStopped` records the `break`. -/
def fitStep (vs ts : Nat → ℚ) (patience interval : Nat) (epoch : Nat)
    (s : FitState) : FitState :=
  let s1 := { s with fitCalls := s.fitCalls + 1 }
  if (epoch + 1) % interval = 0 then
    let v := vs (epoch + 1)
    let t := ts (epoch + 1)
    let s2 := { s1 with listScores := s1.listScores ++ [(epoch + 1, v, t)] }
    match s2.bestScore with
    | none =>
        { s2 with bestScore := some v, bestEpoch := some (epoch + 1),
                  checkpoints := s2.checkpoints ++ [("model.ckpt", epoch + 1)],
                  wait := 0 }
    | some b =>
        if v < b then
          { s2 with bestScore := some v, bestEpoch := some (epoch + 1),
                    checkpoints := s2.checkpoints ++ [("model.ckpt", epoch + 1)],
                    wait := 0 }
        else
          let w := s2.wait + 1
          if patience ≤ w then { s2 with wait := w, earlyStopped := true }
          else { s2 with wait := w }
  else s1

/-- The loop itself, with the remaining iteration count as fuel.  A state on
which `break` fired is returned unchanged: the remaining epochs never run. -/
def fitLoopAux (vs ts : Nat → ℚ) (patience interval : Nat) :
    Nat → Nat → FitState → FitState
  | _, 0, s => s
  | epoch, fuel + 1, s =>
    if s.earlyStopped then s
    else fitLoopAux vs ts patience interval (epoch + 1) fuel
      (fitStep vs ts patience interval epoch s)

/-- `fit_best_model` from `utils.py`: the final loop state
(`list_scores` is the Python return value; the other fields are the
observable effects of the run). -/
def fit_best_model (vs ts : Nat → ℚ) (nb_epoch patience interval : Nat) :
    FitState :=
  fitLoopAux vs ts patience interval 0 nb_epoch initFitState

/-! ## Data loader (`load_data`)

CSV parsing, SMILES parsing and molecular-weight computation are external
(rdkit/pandas); a row of the loaded table after those derivations is a
SMILES id together with its molecular weight.  What the module itself does
to the table is the weight filter `df[df['MolWt'] < MolWt]`. -/

structure MolRow where
  smiles : String
  molWt : ℚ
deriving Repr, DecidableEq

def load_data (rows : List MolRow) (MolWt : ℚ) : List MolRow :=
  rows.filter (fun r => decide (r.molWt < MolWt))

/-! ## Concrete inputs for the example scenarios -/

/-- Validation-score trace of the C1 scenario: 5, 4, 3, 3, 3, 6, ... -/
def vsC1 : Nat → ℚ := fun n =>
  match n with
  | 1 => 5
  | 2 => 4
  | 3 => 3
  | 4 => 3
  | 5 => 3
  | _ => 6

def tsC1 : Nat → ℚ := fun _ => 0

/-- The 5-molecule table of the C5 example scenario. -/
def exampleRows : List MolRow :=
  [⟨"m1", 100⟩, ⟨"m2", 250⟩, ⟨"m3", 300⟩, ⟨"m4", 450⟩, ⟨"m5", 500⟩]

/-- Claim C1: with `max_epochs=10, patience=2, eval_interval=1` and
validation scores 5, 4, 3, 3, 3, 6, ..., the loop stops after processing
epoch 5 (the break fires there, having run exactly 5 fit calls), the best
epoch is 3, and the returned score history has exactly 5 entries. -/
theorem fit_best_model_c1_scenario :
    (fit_best_model vsC1 tsC1 10 2 1).earlyStopped = true ∧
    (fit_best_model vsC1 tsC1 10 2 1).fitCalls = 5 ∧
    (fit_best_model vsC1 tsC1 10 2 1).listScores.length = 5 ∧
    (fit_best_model vsC1 tsC1 10 2 1).bestEpoch = some 3 := by
  decide

/-- Claim C5: the loader's output never contains a row whose weight reaches
the threshold, keeps every loaded row strictly below it, and on the
5-molecule example with threshold 300 returns exactly the rows with
weights 100 and 250. -/
theorem load_data_weight_filter :
    (∀ (rows : List MolRow) (T : ℚ) (r : MolRow),
        r ∈ load_data rows T → r.molWt < T) ∧
    (∀ (rows : List MolRow) (T : ℚ) (r : MolRow),
        r ∈ rows → r.molWt < T → r ∈ load_data rows T) ∧
    load_data exampleRows 300 = [⟨"m1", 100⟩, ⟨"m2", 250⟩] := by
  refine ⟨?_, ?_, by decide⟩
  · intro rows T r hr
    have h := List.of_mem_filter hr
    simpa using h
  · intro rows T r hr hlt
    exact List.mem_filter.mpr ⟨hr, by simpa using hlt⟩

/-- Witness for C5 at a concrete input: the first example row is in the
filtered table and therefore has weight below 300. -/
theorem load_data_weight_filter_witness :
    (⟨"m1", 100⟩ : MolRow).molWt < 300 :=
  load_data_weight_filter.1 exampleRows 300 ⟨"m1", 100⟩ (by decide)

/-! ## Loop lemmas for `fit_best_model` -/

theorem fitLoopAux_zero (vs ts : Nat → ℚ) (p i e : Nat) (s : FitState) :
    fitLoopAux vs ts p i e 0 s = s := rfl

theorem fitLoopAux_succ (vs ts : Nat → ℚ) (p i e f : Nat) (s : FitState) :
    fitLoopAux vs ts p i e (f + 1) s =
      if s.earlyStopped then s
      else fitLoopAux vs ts p i (e + 1) f (fitStep vs ts p i e s) := rfl

/-- Once the `break` has fired, the remaining epochs never run: the loop
returns the stopped state unchanged. -/
theorem fitLoopAux_stopped (vs ts : Nat → ℚ) (p i : Nat) (e f : Nat)
    (s : FitState) (h : s.earlyStopped = true) :
    fitLoopAux vs ts p i e f s = s := by
  cases f with
  | zero => rfl
  | succ f => rw [fitLoopAux_succ, if_pos h]

/-- Splitting the loop's fuel: running `a + b` iterations is running `a`,
then `b` more from where that left off. -/
theorem fitLoopAux_add (vs ts : Nat → ℚ) (p i : Nat) :
    ∀ (a b e : Nat) (s : FitState),
      fitLoopAux vs ts p i e (a + b) s =
        fitLoopAux vs ts p i (e + a) b (fitLoopAux vs ts p i e a s) := by
  intro a
  induction a with
  | zero =>
    intro b e s
    simp [fitLoopAux_zero]
  | succ a ih =>
    intro b e s
    have h1 : a + 1 + b = (a + b) + 1 := by omega
    rw [h1, fitLoopAux_succ, fitLoopAux_succ]
    by_cases hs : s.earlyStopped = true
    · rw [if_pos hs, if_pos hs, fitLoopAux_stopped vs ts p i _ b s hs]
    · rw [if_neg hs, if_neg hs, ih]
      have h2 : e + 1 + a = e + (a + 1) := by omega
      rw [h2]

theorem fitStep_noeval (vs ts : Nat → ℚ) (p i e : Nat) (s : FitState)
    (h : ¬ (e + 1) % i = 0) :
    fitStep vs ts p i e s = { s with fitCalls := s.fitCalls + 1 } := by
  simp [fitStep, h]

/-- A run of iterations none of which hits the evaluation interval only
counts fit calls; every other field is untouched. -/
theorem fitLoopAux_noeval (vs ts : Nat → ℚ) (p i : Nat) :
    ∀ (k e : Nat) (s : FitState), s.earlyStopped = false →
      (∀ j, j < k → ¬ (e + j + 1) % i = 0) →
      fitLoopAux vs ts p i e k s = { s with fitCalls := s.fitCalls + k } := by
  intro k
  induction k with
  | zero => intro e s _ _; simp [fitLoopAux_zero]
  | succ k ih =>
    intro e s hs hj
    rw [fitLoopAux_succ, if_neg (by simp [hs])]
    rw [fitStep_noeval vs ts p i e s (by simpa using hj 0 (by omega))]
    rw [ih (e + 1) _ (by simp [hs]) (fun j hjk => by
      have := hj (j + 1) (by omega)
      simpa [Nat.add_assoc, Nat.add_comm 1 j] using this)]
    have h2 : s.fitCalls + 1 + k = s.fitCalls + (k + 1) := by omega
    simp [h2]

/-- Running one full interval of epochs from an epoch divisible by the
interval: the first `i - 1` iterations skip evaluation, then the last one
is a full `fitStep` at the evaluation epoch. -/
theorem fitLoopAux_block (vs ts : Nat → ℚ) (p i : Nat) (hi : 1 ≤ i)
    (E : Nat) (hE : E % i = 0) (s : FitState) (hs : s.earlyStopped = false) :
    fitLoopAux vs ts p i E i s =
      fitStep vs ts p i (E + (i - 1))
        { s with fitCalls := s.fitCalls + (i - 1) } := by
  have hsplit := fitLoopAux_add vs ts p i (i - 1) 1 E s
  rw [show i - 1 + 1 = i from by omega] at hsplit
  rw [hsplit]
  rw [fitLoopAux_noeval vs ts p i (i - 1) E s hs (fun j hjk => by
    have h1 : E + j + 1 = E + (j + 1) := by omega
    have h2 : j + 1 < i := by omega
    rw [h1, Nat.add_mod, hE, Nat.zero_add, Nat.mod_eq_of_lt h2,
      Nat.mod_eq_of_lt h2]
    omega)]
  rw [fitLoopAux_succ, if_neg (by simp [hs]), fitLoopAux_zero]

/-- The state of the run at the first validation check (epoch `i`): the
first check is always an improvement because `best_score` starts as
`None`, so a checkpoint is written, `wait` stays 0, and the loop has not
stopped. -/
theorem fitLoopAux_firstCheck (vs ts : Nat → ℚ) (p i : Nat) (hi : 1 ≤ i) :
    fitLoopAux vs ts p i 0 i initFitState =
      { bestScore := some (vs i), bestEpoch := some i,
        listScores := [(i, vs i, ts i)], wait := 0,
        checkpoints := [("model.ckpt", i)], earlyStopped := false,
        fitCalls := i } := by
  have hb := fitLoopAux_block vs ts p i hi 0 (Nat.zero_mod i) initFitState rfl
  rw [hb]
  have he : 0 + (i - 1) + 1 = i := by omega
  simp only [fitStep, initFitState, he, Nat.mod_self, if_pos]
  simp

/-- Claim C2: at a validation check, improvement is decided by strict
less-than against the best score so far (`best_score is None or
valid_score < best_score`); on improvement the best score and epoch are
updated, a checkpoint is written to the fixed path `"model.ckpt"`, and
`wait` resets to 0; a tie (`b ≤ v`) counts as non-improvement and writes
no checkpoint. -/
theorem fitStep_improvement_semantics (vs ts : Nat → ℚ) (p i e : Nat)
    (s : FitState) (b : ℚ) (heval : (e + 1) % i = 0) :
    (s.bestScore = none →
      (fitStep vs ts p i e s).bestScore = some (vs (e + 1)) ∧
      (fitStep vs ts p i e s).bestEpoch = some (e + 1) ∧
      (fitStep vs ts p i e s).checkpoints
        = s.checkpoints ++ [("model.ckpt", e + 1)] ∧
      (fitStep vs ts p i e s).wait = 0) ∧
    (s.bestScore = some b → vs (e + 1) < b →
      (fitStep vs ts p i e s).bestScore = some (vs (e + 1)) ∧
      (fitStep vs ts p i e s).bestEpoch = some (e + 1) ∧
      (fitStep vs ts p i e s).checkpoints
        = s.checkpoints ++ [("model.ckpt", e + 1)] ∧
      (fitStep vs ts p i e s).wait = 0) ∧
    (s.bestScore = some b → b ≤ vs (e + 1) →
      (fitStep vs ts p i e s).wait = s.wait + 1 ∧
      (fitStep vs ts p i e s).checkpoints = s.checkpoints ∧
      (fitStep vs ts p i e s).bestScore = s.bestScore ∧
      (fitStep vs ts p i e s).bestEpoch = s.bestEpoch) := by
  refine ⟨?_, ?_, ?_⟩
  · intro hb
    simp [fitStep, heval, hb]
  · intro hb hlt
    simp [fitStep, heval, hb, hlt]
  · intro hb hle
    have hnlt : ¬ vs (e + 1) < b := not_lt.mpr hle
    simp only [fitStep, heval, if_pos, hb, hnlt, if_false]
    split <;> simp [hb]

/-- Witness for C2 at a concrete input: starting from the initial state
(`best_score = None`) at epoch 0 with interval 1, the step checkpoints to
`"model.ckpt"` and resets `wait`. -/
theorem fitStep_improvement_semantics_witness :
    (fitStep vsC1 tsC1 2 1 0 initFitState).bestScore = some (vsC1 1) ∧
    (fitStep vsC1 tsC1 2 1 0 initFitState).bestEpoch = some 1 ∧
    (fitStep vsC1 tsC1 2 1 0 initFitState).checkpoints
      = initFitState.checkpoints ++ [("model.ckpt", 1)] ∧
    (fitStep vsC1 tsC1 2 1 0 initFitState).wait = 0 :=
  (fitStep_improvement_semantics vsC1 tsC1 2 1 0 initFitState 0 (by decide)).1 rfl

/-- `fitStep` only ever appends to the checkpoint list. -/
theorem fitStep_checkpoints_mono (vs ts : Nat → ℚ) (p i e : Nat)
    (s : FitState) :
    ∃ l, (fitStep vs ts p i e s).checkpoints = s.checkpoints ++ l := by
  rcases hb : s.bestScore with _ | b
  · by_cases h : (e + 1) % i = 0
    · exact ⟨[("model.ckpt", e + 1)], by simp [fitStep, h, hb]⟩
    · exact ⟨[], by simp [fitStep, h]⟩
  · by_cases h : (e + 1) % i = 0
    · by_cases hv : vs (e + 1) < b
      · exact ⟨[("model.ckpt", e + 1)], by simp [fitStep, h, hb, hv]⟩
      · refine ⟨[], ?_⟩
        simp only [fitStep, h, if_pos, hb, hv, if_false]
        split <;> simp
    · exact ⟨[], by simp [fitStep, h]⟩

/-- `fitStep` never removes score-history entries. -/
theorem fitStep_scores_mono (vs ts : Nat → ℚ) (p i e : Nat) (s : FitState) :
    s.listScores.length ≤ (fitStep vs ts p i e s).listScores.length := by
  rcases hb : s.bestScore with _ | b
  · by_cases h : (e + 1) % i = 0
    · simp [fitStep, h, hb]
    · simp [fitStep, h]
  · by_cases h : (e + 1) % i = 0
    · by_cases hv : vs (e + 1) < b
      · simp [fitStep, h, hb, hv]
      · simp only [fitStep, h, if_pos, hb, hv, if_false]
        split <;> simp
    · simp [fitStep, h]

/-- A step that fires the `break` is a validation check, so it appended
exactly one entry to the score history. -/
theorem fitStep_stop_appends (vs ts : Nat → ℚ) (p i e : Nat) (s : FitState)
    (hs : s.earlyStopped = false)
    (hstop : (fitStep vs ts p i e s).earlyStopped = true) :
    (fitStep vs ts p i e s).listScores.length = s.listScores.length + 1 := by
  rcases hb : s.bestScore with _ | b
  · by_cases h : (e + 1) % i = 0
    · simp [fitStep, h, hb]
    · rw [fitStep_noeval vs ts p i e s h] at hstop
      simp [hs] at hstop
  · by_cases h : (e + 1) % i = 0
    · by_cases hv : vs (e + 1) < b
      · simp [fitStep, h, hb, hv]
      · simp only [fitStep, h, if_pos, hb, hv, if_false]
        split <;> simp
    · rw [fitStep_noeval vs ts p i e s h] at hstop
      simp [hs] at hstop

/-- The loop only ever appends to the checkpoint list. -/
theorem fitLoopAux_checkpoints_mono (vs ts : Nat → ℚ) (p i : Nat) :
    ∀ (f e : Nat) (s : FitState),
      ∃ l, (fitLoopAux vs ts p i e f s).checkpoints = s.checkpoints ++ l := by
  intro f
  induction f with
  | zero => intro e s; exact ⟨[], by simp [fitLoopAux_zero]⟩
  | succ f ih =>
    intro e s
    by_cases hs : s.earlyStopped = true
    · exact ⟨[], by rw [fitLoopAux_succ, if_pos hs]; simp⟩
    · obtain ⟨l1, h1⟩ := fitStep_checkpoints_mono vs ts p i e s
      obtain ⟨l2, h2⟩ := ih (e + 1) (fitStep vs ts p i e s)
      exact ⟨l1 ++ l2, by
        rw [fitLoopAux_succ, if_neg hs, h2, h1, List.append_assoc]⟩

/-- If the loop enters un-stopped and leaves stopped, the score history
strictly grew (the stopping check itself appended an entry). -/
theorem fitLoopAux_stop_grows (vs ts : Nat → ℚ) (p i : Nat) :
    ∀ (f e : Nat) (s : FitState), s.earlyStopped = false →
      (fitLoopAux vs ts p i e f s).earlyStopped = true →
      s.listScores.length < (fitLoopAux vs ts p i e f s).listScores.length := by
  intro f
  induction f with
  | zero =>
    intro e s hs hstop
    rw [fitLoopAux_zero] at hstop
    rw [hs] at hstop
    exact absurd hstop (by simp)
  | succ f ih =>
    intro e s hs hstop
    rw [fitLoopAux_succ, if_neg (by simp [hs])] at hstop ⊢
    by_cases hs' : (fitStep vs ts p i e s).earlyStopped = true
    · rw [fitLoopAux_stopped vs ts p i _ f _ hs']
      rw [fitStep_stop_appends vs ts p i e s hs hs']
      omega
    · have h1 := ih (e + 1) (fitStep vs ts p i e s) (by simpa using hs') hstop
      have h2 := fitStep_scores_mono vs ts p i e s
      omega

/-- Claim C10: in every run reaching at least one validation check, the
first check (at epoch `interval`) is treated as an improvement regardless
of the score's value: the state at the first check has the first score as
best, `wait` still 0, the loop not stopped, and exactly one checkpoint
written to `"model.ckpt"`; consequently the full run's first checkpoint is
`("model.ckpt", interval)` and, for `patience ≥ 1`, an early stop implies
at least two validation checks happened. -/
theorem fit_best_model_first_check (vs ts : Nat → ℚ) (nb p i : Nat)
    (hi : 1 ≤ i) (hnb : i ≤ nb) (_hp : 1 ≤ p) :
    (fitLoopAux vs ts p i 0 i initFitState).bestScore = some (vs i) ∧
    (fitLoopAux vs ts p i 0 i initFitState).wait = 0 ∧
    (fitLoopAux vs ts p i 0 i initFitState).earlyStopped = false ∧
    (fitLoopAux vs ts p i 0 i initFitState).checkpoints
      = [("model.ckpt", i)] ∧
    (fit_best_model vs ts nb p i).checkpoints.head?
      = some ("model.ckpt", i) ∧
    ((fit_best_model vs ts nb p i).earlyStopped = true →
      2 ≤ (fit_best_model vs ts nb p i).listScores.length) := by
  have hfc := fitLoopAux_firstCheck vs ts p i hi
  obtain ⟨k, hk⟩ : ∃ k, nb = i + k := ⟨nb - i, by omega⟩
  subst hk
  have hsplit : fit_best_model vs ts (i + k) p i =
      fitLoopAux vs ts p i (0 + i) k (fitLoopAux vs ts p i 0 i initFitState) :=
    fitLoopAux_add vs ts p i i k 0 initFitState
  refine ⟨by rw [hfc], by rw [hfc], by rw [hfc], by rw [hfc], ?_, ?_⟩
  · obtain ⟨l, hl⟩ :=
      fitLoopAux_checkpoints_mono vs ts p i k (0 + i)
        (fitLoopAux vs ts p i 0 i initFitState)
    rw [hsplit, hl, hfc]
    simp
  · intro hstop
    have hgrow :=
      fitLoopAux_stop_grows vs ts p i k (0 + i)
        (fitLoopAux vs ts p i 0 i initFitState)
        (by rw [hfc]) (by rw [← hsplit]; exact hstop)
    rw [hsplit, hfc]
    rw [hfc] at hgrow
    simp at hgrow ⊢
    omega

/-- Witness for C10 at a concrete input (`interval = 1`, `nb_epoch = 3`,
`patience = 2`, the C1 score trace). -/
theorem fit_best_model_first_check_witness :
    (fitLoopAux vsC1 tsC1 2 1 0 1 initFitState).bestScore = some (vsC1 1) ∧
    (fitLoopAux vsC1 tsC1 2 1 0 1 initFitState).wait = 0 ∧
    (fitLoopAux vsC1 tsC1 2 1 0 1 initFitState).earlyStopped = false ∧
    (fitLoopAux vsC1 tsC1 2 1 0 1 initFitState).checkpoints
      = [("model.ckpt", 1)] ∧
    (fit_best_model vsC1 tsC1 3 2 1).checkpoints.head?
      = some ("model.ckpt", 1) ∧
    ((fit_best_model vsC1 tsC1 3 2 1).earlyStopped = true →
      2 ≤ (fit_best_model vsC1 tsC1 3 2 1).listScores.length) :=
  fit_best_model_first_check vsC1 tsC1 3 2 1 (by decide) (by decide) (by decide)

/-- A non-improving validation check that reaches `patience`: `wait` is
incremented, the entry is appended, and the `break` fires. -/
theorem fitStep_noimprove_stop (vs ts : Nat → ℚ) (p i e : Nat)
    (s : FitState) (b : ℚ) (heval : (e + 1) % i = 0)
    (hb : s.bestScore = some b) (hle : b ≤ vs (e + 1))
    (hp2 : p ≤ s.wait + 1) :
    fitStep vs ts p i e s =
      { s with listScores := s.listScores ++ [(e + 1, vs (e + 1), ts (e + 1))],
               wait := s.wait + 1, earlyStopped := true,
               fitCalls := s.fitCalls + 1 } := by
  have hnlt : ¬ vs (e + 1) < b := not_lt.mpr hle
  simp [fitStep, heval, hb, hnlt, hp2]

/-- A non-improving validation check below `patience`: `wait` is
incremented, the entry is appended, and the loop goes on. -/
theorem fitStep_noimprove_cont (vs ts : Nat → ℚ) (p i e : Nat)
    (s : FitState) (b : ℚ) (heval : (e + 1) % i = 0)
    (hb : s.bestScore = some b) (hle : b ≤ vs (e + 1))
    (hp2 : ¬ p ≤ s.wait + 1) :
    fitStep vs ts p i e s =
      { s with listScores := s.listScores ++ [(e + 1, vs (e + 1), ts (e + 1))],
               wait := s.wait + 1, fitCalls := s.fitCalls + 1 } := by
  have hnlt : ¬ vs (e + 1) < b := not_lt.mpr hle
  simp [fitStep, heval, hb, hnlt, hp2]


/-- Plateau run: from a state whose best score is the score of the first
check and which every later score fails to beat, each of the next `j + 1`
intervals is a non-improving check; the loop stops exactly when `wait`
reaches `patience`, i.e. after `j + 1` more checks when
`wait + (j + 1) = patience`. -/
theorem fitLoopAux_plateau (vs ts : Nat → ℚ) (p i : Nat) (hi : 1 ≤ i)
    (hmono : ∀ n, vs i ≤ vs n) :
    ∀ (j E : Nat) (s : FitState), E % i = 0 →
      s.earlyStopped = false → s.bestScore = some (vs i) →
      s.wait + (j + 1) = p → s.fitCalls = E →
      (fitLoopAux vs ts p i E ((j + 1) * i) s).earlyStopped = true ∧
      (fitLoopAux vs ts p i E ((j + 1) * i) s).listScores.length
        = s.listScores.length + (j + 1) ∧
      (fitLoopAux vs ts p i E ((j + 1) * i) s).fitCalls = E + (j + 1) * i := by
  intro j
  induction j with
  | zero =>
    intro E s hE hs hb hw hf
    rw [show (0 + 1) * i = i from by omega,
      fitLoopAux_block vs ts p i hi E hE s hs]
    have heval : E + (i - 1) + 1 = E + i := by omega
    rw [fitStep_noimprove_stop vs ts p i (E + (i - 1))
      ⟨s.bestScore, s.bestEpoch, s.listScores, s.wait, s.checkpoints,
        s.earlyStopped, s.fitCalls + (i - 1)⟩ (vs i)
      (by rw [heval, Nat.add_mod_right]; exact hE) hb
      (by rw [heval]; exact hmono (E + i))
      (by show p ≤ s.wait + 1; omega)]
    refine ⟨rfl, by simp, ?_⟩
    show s.fitCalls + (i - 1) + 1 = E + i
    omega
  | succ j ih =>
    intro E s hE hs hb hw hf
    have hfuel : (j + 1 + 1) * i = i + (j + 1) * i := by
      rw [Nat.succ_mul, Nat.add_comm]
    rw [hfuel, fitLoopAux_add, fitLoopAux_block vs ts p i hi E hE s hs]
    have heval : E + (i - 1) + 1 = E + i := by omega
    rw [fitStep_noimprove_cont vs ts p i (E + (i - 1))
      ⟨s.bestScore, s.bestEpoch, s.listScores, s.wait, s.checkpoints,
        s.earlyStopped, s.fitCalls + (i - 1)⟩ (vs i)
      (by rw [heval, Nat.add_mod_right]; exact hE) hb
      (by rw [heval]; exact hmono (E + i))
      (by show ¬ p ≤ s.wait + 1; omega), heval]
    show
      (fitLoopAux vs ts p i (E + i) ((j + 1) * i)
        ⟨s.bestScore, s.bestEpoch,
          s.listScores ++ [(E + i, vs (E + i), ts (E + i))], s.wait + 1,
          s.checkpoints, s.earlyStopped,
          s.fitCalls + (i - 1) + 1⟩).earlyStopped = true ∧
      (fitLoopAux vs ts p i (E + i) ((j + 1) * i)
        ⟨s.bestScore, s.bestEpoch,
          s.listScores ++ [(E + i, vs (E + i), ts (E + i))], s.wait + 1,
          s.checkpoints, s.earlyStopped,
          s.fitCalls + (i - 1) + 1⟩).listScores.length
        = s.listScores.length + (j + 1 + 1) ∧
      (fitLoopAux vs ts p i (E + i) ((j + 1) * i)
        ⟨s.bestScore, s.bestEpoch,
          s.listScores ++ [(E + i, vs (E + i), ts (E + i))], s.wait + 1,
          s.checkpoints, s.earlyStopped,
          s.fitCalls + (i - 1) + 1⟩).fitCalls = E + (i + (j + 1) * i)
    have hih := ih (E + i)
      ⟨s.bestScore, s.bestEpoch,
        s.listScores ++ [(E + i, vs (E + i), ts (E + i))], s.wait + 1,
        s.checkpoints, s.earlyStopped, s.fitCalls + (i - 1) + 1⟩
      (by rw [Nat.add_mod_right]; exact hE) hs hb
      (by show s.wait + 1 + (j + 1) = p; omega)
      (by show s.fitCalls + (i - 1) + 1 = E + i; omega)
    refine ⟨hih.1, ?_, ?_⟩
    · rw [hih.2.1]
      simp
      omega
    · rw [hih.2.2, ← Nat.add_assoc]

/-- Constant validation trace (a score that never improves). -/
def vsFlat : Nat → ℚ := fun _ => 5

def tsFlat : Nat → ℚ := fun _ => 0

/-- A mid-run state used to witness the per-check part of C3. -/
def plateauStateC3 : FitState :=
  { bestScore := some 5, bestEpoch := some 1, listScores := [(1, 5, 0)],
    wait := 0, checkpoints := [("model.ckpt", 1)], earlyStopped := false,
    fitCalls := 1 }

/-- A stopped state used to witness the stop-immediately part of C3. -/
def stoppedStateC3 : FitState :=
  { bestScore := some 5, bestEpoch := some 1, listScores := [(1, 5, 0)],
    wait := 2, checkpoints := [("model.ckpt", 1)], earlyStopped := true,
    fitCalls := 3 }

/-- Claim C3: every non-improving validation check increments the
non-improvement counter and fires the `break` exactly when the counter
reaches `patience`; a stopped loop runs no further epochs; and if the
validation score never improves after the first check, the run stops
early after exactly `patience` additional validation checks beyond the
first (`patience + 1` history entries, `(patience + 1) * interval` fit
calls). -/
theorem fit_best_model_patience_stop :
    (∀ (vs ts : Nat → ℚ) (p i e : Nat) (s : FitState) (b : ℚ),
        (e + 1) % i = 0 → s.bestScore = some b → b ≤ vs (e + 1) →
        (fitStep vs ts p i e s).wait = s.wait + 1 ∧
        (fitStep vs ts p i e s).earlyStopped
          = (s.earlyStopped || decide (p ≤ s.wait + 1))) ∧
    (∀ (vs ts : Nat → ℚ) (p i e f : Nat) (s : FitState),
        s.earlyStopped = true → fitLoopAux vs ts p i e f s = s) ∧
    (∀ (vs ts : Nat → ℚ) (nb p i : Nat), 1 ≤ i → 1 ≤ p →
        (p + 1) * i ≤ nb → (∀ n, vs i ≤ vs n) →
        (fit_best_model vs ts nb p i).earlyStopped = true ∧
        (fit_best_model vs ts nb p i).listScores.length = p + 1 ∧
        (fit_best_model vs ts nb p i).fitCalls = (p + 1) * i) := by
  refine ⟨?_, ?_, ?_⟩
  · intro vs ts p i e s b heval hb hle
    by_cases hp2 : p ≤ s.wait + 1
    · rw [fitStep_noimprove_stop vs ts p i e s b heval hb hle hp2]
      exact ⟨rfl, by simp [hp2]⟩
    · rw [fitStep_noimprove_cont vs ts p i e s b heval hb hle hp2]
      exact ⟨rfl, by simp [hp2]⟩
  · intro vs ts p i e f s h
    exact fitLoopAux_stopped vs ts p i e f s h
  · intro vs ts nb p i hi hp hnb hmono
    obtain ⟨q, hq⟩ : ∃ q, p = q + 1 := ⟨p - 1, by omega⟩
    subst hq
    obtain ⟨k, hk⟩ : ∃ k, nb = (q + 1 + 1) * i + k :=
      ⟨nb - (q + 1 + 1) * i, by omega⟩
    subst hk
    have hsm : (q + 1 + 1) * i = i + (q + 1) * i := by
      rw [Nat.succ_mul, Nat.add_comm]
    have hfc := fitLoopAux_firstCheck vs ts (q + 1) i hi
    have hplat := fitLoopAux_plateau vs ts (q + 1) i hi hmono q i
      { bestScore := some (vs i), bestEpoch := some i,
        listScores := [(i, vs i, ts i)], wait := 0,
        checkpoints := [("model.ckpt", i)], earlyStopped := false,
        fitCalls := i }
      (Nat.mod_self i) rfl rfl (by show 0 + (q + 1) = q + 1; omega) rfl
    have hrun : fit_best_model vs ts ((q + 1 + 1) * i + k) (q + 1) i =
        fitLoopAux vs ts (q + 1) i (i + (q + 1) * i) k
          (fitLoopAux vs ts (q + 1) i i ((q + 1) * i)
            (fitLoopAux vs ts (q + 1) i 0 i initFitState)) := by
      show fitLoopAux vs ts (q + 1) i 0 ((q + 1 + 1) * i + k) initFitState = _
      rw [fitLoopAux_add vs ts (q + 1) i ((q + 1 + 1) * i) k 0 initFitState,
        Nat.zero_add, hsm,
        fitLoopAux_add vs ts (q + 1) i i ((q + 1) * i) 0 initFitState,
        Nat.zero_add]
    rw [hrun, hfc]
    rw [fitLoopAux_stopped vs ts (q + 1) i (i + (q + 1) * i) k _ hplat.1]
    refine ⟨hplat.1, ?_, ?_⟩
    · rw [hplat.2.1]
      simp
      omega
    · rw [hplat.2.2, hsm]

/-- Witness for C3 at concrete inputs: a non-improving check on a concrete
mid-run state, a concrete stopped state, and a full run with a constant
(never-improving) score, `patience = 2`, `interval = 1`, `max_epochs = 3`. -/
theorem fit_best_model_patience_stop_witness :
    ((fitStep vsFlat tsFlat 2 1 1 plateauStateC3).wait
        = plateauStateC3.wait + 1 ∧
      (fitStep vsFlat tsFlat 2 1 1 plateauStateC3).earlyStopped
        = (plateauStateC3.earlyStopped
            || decide (2 ≤ plateauStateC3.wait + 1))) ∧
    fitLoopAux vsFlat tsFlat 2 1 5 3 stoppedStateC3 = stoppedStateC3 ∧
    ((fit_best_model vsFlat tsFlat 3 2 1).earlyStopped = true ∧
      (fit_best_model vsFlat tsFlat 3 2 1).listScores.length = 2 + 1 ∧
      (fit_best_model vsFlat tsFlat 3 2 1).fitCalls = (2 + 1) * 1) :=
  ⟨fit_best_model_patience_stop.1 vsFlat tsFlat 2 1 1 plateauStateC3 5
      (by decide) rfl (le_refl 5),
    fit_best_model_patience_stop.2.1 vsFlat tsFlat 2 1 5 3 stoppedStateC3 rfl,
    fit_best_model_patience_stop.2.2 vsFlat tsFlat 3 2 1 (by decide)
      (by decide) (by decide) (fun _ => le_refl 5)⟩

/-- `model.fit` runs exactly once per loop iteration, whatever else the
iteration does. -/
theorem fitStep_fitCalls (vs ts : Nat → ℚ) (p i e : Nat) (s : FitState) :
    (fitStep vs ts p i e s).fitCalls = s.fitCalls + 1 := by
  rcases hb : s.bestScore with _ | b
  · by_cases h : (e + 1) % i = 0 <;> simp [fitStep, h, hb]
  · by_cases h : (e + 1) % i = 0
    · by_cases hv : vs (e + 1) < b
      · simp [fitStep, h, hb, hv]
      · simp only [fitStep, h, if_pos, hb, hv, if_false]
        split <;> simp
    · simp [fitStep, h]

/-- Every validation check appends exactly the triple
`(epoch, valid_score, training_score)`, whichever branch the bookkeeping
takes. -/
theorem fitStep_scores_eval (vs ts : Nat → ℚ) (p i e : Nat) (s : FitState)
    (h : (e + 1) % i = 0) :
    (fitStep vs ts p i e s).listScores
      = s.listScores ++ [(e + 1, vs (e + 1), ts (e + 1))] := by
  rcases hb : s.bestScore with _ | b
  · simp [fitStep, h, hb]
  · by_cases hv : vs (e + 1) < b
    · simp [fitStep, h, hb, hv]
    · simp only [fitStep, h, if_pos, hb, hv, if_false]
      split <;> simp

/-- The epochs at which a validation check happens during `n` processed
epochs: those `e ∈ {1, ..., n}` with `e % interval = 0`. -/
def evalEpochs (i n : Nat) : List Nat :=
  ((List.range n).map (fun e => e + 1)).filter (fun e => decide (e % i = 0))

theorem evalEpochs_succ (i n : Nat) :
    evalEpochs i (n + 1) =
      evalEpochs i n ++ if (n + 1) % i = 0 then [n + 1] else [] := by
  by_cases h : (n + 1) % i = 0 <;>
    simp [evalEpochs, List.range_succ, h]

/-- Loop invariant: the score history is exactly the evaluated triples at
the check epochs among the epochs processed so far. -/
theorem fitLoopAux_scores_inv (vs ts : Nat → ℚ) (p i : Nat) :
    ∀ (f e : Nat) (s : FitState), s.fitCalls = e →
      s.listScores = (evalEpochs i e).map (fun n => (n, vs n, ts n)) →
      (fitLoopAux vs ts p i e f s).listScores
        = (evalEpochs i (fitLoopAux vs ts p i e f s).fitCalls).map
            (fun n => (n, vs n, ts n)) := by
  intro f
  induction f with
  | zero =>
    intro e s hfc hls
    rw [fitLoopAux_zero, hls, hfc]
  | succ f ih =>
    intro e s hfc hls
    rw [fitLoopAux_succ]
    by_cases hs : s.earlyStopped = true
    · rw [if_pos hs, hls, hfc]
    · rw [if_neg hs]
      apply ih (e + 1)
      · rw [fitStep_fitCalls, hfc]
      · by_cases he : (e + 1) % i = 0
        · rw [fitStep_scores_eval vs ts p i e s he, hls, evalEpochs_succ,
            if_pos he]
          simp
        · rw [fitStep_noeval vs ts p i e s he]
          rw [show ({ s with fitCalls := s.fitCalls + 1 } : FitState).listScores
            = s.listScores from rfl, hls, evalEpochs_succ, if_neg he]
          simp

/-- Claim C7: the returned score history is an ordered sequence of
(epoch, validation score, training score) triples with exactly one entry
per validation check, at exactly the epochs divisible by the interval
among the processed epochs (up to the stopping epoch), with strictly
increasing epoch numbers — and this is the history returned whether the
run stopped early or exhausted `max_epochs`. -/
theorem fit_best_model_score_history (vs ts : Nat → ℚ) (nb p i : Nat)
    (_hi : 1 ≤ i) :
    (fit_best_model vs ts nb p i).listScores
      = (evalEpochs i (fit_best_model vs ts nb p i).fitCalls).map
          (fun n => (n, vs n, ts n)) ∧
    ((fit_best_model vs ts nb p i).listScores.map Prod.fst).Pairwise
      (· < ·) := by
  have h1 := fitLoopAux_scores_inv vs ts p i nb 0 initFitState rfl
    (by simp [evalEpochs, initFitState])
  refine ⟨h1, ?_⟩
  show ((fitLoopAux vs ts p i 0 nb initFitState).listScores.map
    Prod.fst).Pairwise (· < ·)
  rw [h1, List.map_map]
  rw [show (Prod.fst ∘ fun n => ((n, vs n, ts n) : Nat × ℚ × ℚ)) = id from rfl,
    List.map_id]
  exact ((List.pairwise_lt_range _).map _
    (fun a b hab => by omega)).filter _

/-- Witness for C7 on the C1 scenario run. -/
theorem fit_best_model_score_history_witness :
    (fit_best_model vsC1 tsC1 10 2 1).listScores
      = (evalEpochs 1 (fit_best_model vsC1 tsC1 10 2 1).fitCalls).map
          (fun n => (n, vsC1 n, tsC1 n)) ∧
    ((fit_best_model vsC1 tsC1 10 2 1).listScores.map Prod.fst).Pairwise
      (· < ·) :=
  fit_best_model_score_history vsC1 tsC1 10 2 1 (by decide)

/-! ## Receptor dataset builder (`receptor_data`)

A row of the input table carries its SMILES id, its parsed-molecule
handle (opaque, modelled by a tag consumed only by the featurizer), and
its receptor-score columns.  External collaborators are parameters:
`featurize` (the deepchem featurizer), `stdFn` (numpy's standard
deviation, whose square root is not rational), and `permOf`
(`np.random.permutation` as a function of the numpy RNG state).  The
deepchem splitter reseeds numpy with the supplied seed, permutes the row
indices, and slices at `int(0.8*n)` and `int(0.9*n)`. -/

structure RRow where
  smiles : String
  mol : String
  labels : List (String × ℚ)
deriving Repr, DecidableEq

structure NormalizationTransformer where
  yMean : ℚ
  yStd : ℚ
deriving Repr, DecidableEq

abbrev DCDataset := List (List ℚ × ℚ × String)

/-- Column projection `df[[receptor_name, 'molecules', 'SMILES']]`: pandas
raises a `KeyError` when the receptor column is absent, modelled by
`none`. -/
def colRows (df : List RRow) (receptor_name : String) :
    Option (List (RRow × ℚ)) :=
  match df with
  | [] => some []
  | r :: rest =>
    match r.labels.lookup receptor_name, colRows rest receptor_name with
    | some v, some rs => some ((r, v) :: rs)
    | _, _ => none

/-- The mask `df_receptor[receptor_name] == 0.0` followed by the drop:
rows whose receptor value is exactly 0 are removed. -/
def keptRows (rows : List (RRow × ℚ)) : List (RRow × ℚ) :=
  rows.filter (fun rv => decide (¬ rv.2 = 0))

/-- `dc.trans.NormalizationTransformer(transform_y=True, dataset=...)`:
`y_means` is the exact mean of the labels; `y_stds` comes from the
external numeric library (`stdFn`). -/
def transformerOf (stdFn : List ℚ → ℚ) (kept : List (RRow × ℚ)) :
    NormalizationTransformer :=
  ⟨(kept.map (fun rv => rv.2)).sum / ((kept.map (fun rv => rv.2)).length : ℚ),
    stdFn (kept.map (fun rv => rv.2))⟩

/-- The featurized, normalized pre-split dataset:
`(X, (y - y_mean) / y_std, SMILES id)` per kept row. -/
def normalizeDs (stdFn : List ℚ → ℚ) (featurize : String → List ℚ)
    (kept : List (RRow × ℚ)) : DCDataset :=
  kept.map (fun rv =>
    (featurize rv.1.mol,
      (rv.2 - (transformerOf stdFn kept).yMean)
        / (transformerOf stdFn kept).yStd,
      rv.1.smiles))

/-- `np.random.seed(seed)` inside the deepchem splitter: a non-`None` seed
replaces the ambient numpy RNG state. -/
def npSeed (g : Nat) (seed : Option Nat) : Nat :=
  match seed with
  | some s => s
  | none => g

/-- `receptor_data` from `utils.py`: project to the receptor column, drop
exactly-zero values, featurize, normalize the labels, and split 80/10/10
by a seeded random permutation of row indices. -/
def receptor_data (stdFn : List ℚ → ℚ) (permOf : Nat → Nat → List Nat)
    (g : Nat) (df : List RRow) (receptor_name : String)
    (featurize : String → List ℚ) (seed : Nat) :
    Option (DCDataset × DCDataset × DCDataset × NormalizationTransformer) :=
  match colRows df receptor_name with
  | none => none
  | some rows =>
    let kept := keptRows rows
    let transformer := transformerOf stdFn kept
    let dataset := normalizeDs stdFn featurize kept
    let n := dataset.length
    let perm := permOf (npSeed g (some seed)) n
    let shuffled := perm.filterMap (fun k => dataset[k]?)
    let train_cutoff := 8 * n / 10
    let valid_cutoff := 9 * n / 10
    some (shuffled.take train_cutoff,
      (shuffled.drop train_cutoff).take (valid_cutoff - train_cutoff),
      shuffled.drop valid_cutoff, transformer)

/-- Claim C6: the seed fully determines the split — the ambient numpy RNG
state `g` is irrelevant because the splitter reseeds with the integer
seed, so two calls on the same table, column, featurizer and seed return
identical partition membership. -/
theorem receptor_data_deterministic (stdFn : List ℚ → ℚ)
    (permOf : Nat → Nat → List Nat) (g1 g2 : Nat) (df : List RRow)
    (receptor_name : String) (featurize : String → List ℚ) (seed : Nat) :
    receptor_data stdFn permOf g1 df receptor_name featurize seed
      = receptor_data stdFn permOf g2 df receptor_name featurize seed := rfl

/-- Each projected row comes from a table row whose receptor column holds
that value. -/
theorem colRows_mem (receptor_name : String) :
    ∀ (df : List RRow) (rows : List (RRow × ℚ)),
      colRows df receptor_name = some rows →
      ∀ rv ∈ rows, rv.1 ∈ df ∧
        rv.1.labels.lookup receptor_name = some rv.2 := by
  intro df
  induction df with
  | nil =>
    intro rows h rv hrv
    simp only [colRows, Option.some.injEq] at h
    subst h
    simp at hrv
  | cons r rest ih =>
    intro rows h rv hrv
    rcases hl : r.labels.lookup receptor_name with _ | v
    · rw [colRows, hl] at h
      simp at h
    · rcases hc : colRows rest receptor_name with _ | rs
      · rw [colRows, hl, hc] at h
        simp at h
      · rw [colRows, hl, hc] at h
        simp only [Option.some.injEq] at h
        subst h
        rcases List.mem_cons.mp hrv with h1 | h1
        · subst h1
          exact ⟨List.mem_cons_self r rest, hl⟩
        · obtain ⟨hm, hv⟩ := ih rs hc rv h1
          exact ⟨List.mem_cons_of_mem r hm, hv⟩

/-- Reading every index of a list in order reproduces the list. -/
theorem filterMap_getElem_range {α : Type} (l : List α) :
    (List.range l.length).filterMap (fun k => l[k]?) = l := by
  induction l with
  | nil => simp
  | cons a t ih =>
    rw [show (a :: t).length = t.length + 1 from rfl, List.range_succ_eq_map]
    rw [List.filterMap_cons, List.filterMap_map]
    simp only [List.getElem?_cons_zero]
    have hcomp : ((fun k => (a :: t)[k]?) ∘ Nat.succ) = fun k => t[k]? := by
      funext k
      simp
    rw [hcomp, ih]

/-- Slicing a list at cut points `a ≤ b` and re-concatenating the three
pieces gives back the list. -/
theorem take_drop_partition {α : Type} (l : List α) (a b : Nat)
    (hab : a ≤ b) :
    l.take a ++ ((l.drop a).take (b - a) ++ l.drop b) = l := by
  have h1 : (l.drop a).take (b - a) ++ l.drop b = l.drop a := by
    rw [show l.drop b = (l.drop a).drop (b - a) from by
      rw [List.drop_drop, show a + (b - a) = b from by omega]]
    exact List.take_append_drop _ _
  rw [h1, List.take_append_drop]

/-- Claim C4, amended: every row whose receptor value is exactly 0.0 is
dropped before featurization, normalization and splitting, and — when the
external index permutation really is a permutation — the three partitions
are disjoint and together cover exactly the post-filter (normalized) row
set: their concatenation is a permutation of it, and every returned row
is the normalized image of an input row with nonzero receptor value.
(The returned labels themselves are normalized, so the output can contain
a label exactly 0.0; the unamended claim fails, see the
counterexample.) -/
theorem receptor_data_partition (stdFn : List ℚ → ℚ)
    (permOf : Nat → Nat → List Nat) (g : Nat) (df : List RRow)
    (receptor_name : String) (featurize : String → List ℚ) (seed : Nat)
    (rows : List (RRow × ℚ)) (tr va te : DCDataset)
    (t : NormalizationTransformer)
    (hcol : colRows df receptor_name = some rows)
    (hperm : (permOf (npSeed g (some seed))
        (normalizeDs stdFn featurize (keptRows rows)).length).Perm
      (List.range (normalizeDs stdFn featurize (keptRows rows)).length))
    (hout : receptor_data stdFn permOf g df receptor_name featurize seed
      = some (tr, va, te, t)) :
    (tr ++ (va ++ te)).Perm (normalizeDs stdFn featurize (keptRows rows)) ∧
    ∀ x ∈ tr ++ (va ++ te), ∃ r v, r ∈ df ∧
      r.labels.lookup receptor_name = some v ∧ ¬ v = 0 ∧
      x.2.2 = r.smiles ∧ x.2.1 = (v - t.yMean) / t.yStd := by
  simp only [receptor_data, hcol, Option.some.injEq, Prod.mk.injEq] at hout
  obtain ⟨htr, hva, hte, ht⟩ := hout
  subst htr
  subst hva
  subst hte
  subst ht
  have hsh : ((permOf (npSeed g (some seed))
        (normalizeDs stdFn featurize (keptRows rows)).length).filterMap
      (fun k => (normalizeDs stdFn featurize (keptRows rows))[k]?)).Perm
      (normalizeDs stdFn featurize (keptRows rows)) := by
    have h := hperm.filterMap
      (fun k => (normalizeDs stdFn featurize (keptRows rows))[k]?)
    rwa [filterMap_getElem_range] at h
  have hcut : 8 * (normalizeDs stdFn featurize (keptRows rows)).length / 10
      ≤ 9 * (normalizeDs stdFn featurize (keptRows rows)).length / 10 :=
    Nat.div_le_div_right (by omega)
  have hpart := take_drop_partition
    ((permOf (npSeed g (some seed))
        (normalizeDs stdFn featurize (keptRows rows)).length).filterMap
      (fun k => (normalizeDs stdFn featurize (keptRows rows))[k]?))
    (8 * (normalizeDs stdFn featurize (keptRows rows)).length / 10)
    (9 * (normalizeDs stdFn featurize (keptRows rows)).length / 10) hcut
  have hperm3 := hpart ▸ hsh
  refine ⟨hperm3, ?_⟩
  intro x hx
  have hxds : x ∈ normalizeDs stdFn featurize (keptRows rows) :=
    hperm3.mem_iff.mp hx
  obtain ⟨rv, hrv, hfx⟩ := List.mem_map.mp hxds
  have hkept := List.mem_filter.mp hrv
  have hnz : ¬ rv.2 = 0 := by simpa using hkept.2
  obtain ⟨hmem, hlook⟩ :=
    colRows_mem receptor_name df rows hcol rv hkept.1
  refine ⟨rv.1, rv.2, hmem, hlook, hnz, ?_, ?_⟩
  · rw [← hfx]
  · rw [← hfx]

/-- A 3-row table with receptor values 1, 2 and 3 (no zero sentinel). -/
def dfC4 : List RRow :=
  [⟨"s1", "m1", [("R", 1)]⟩, ⟨"s2", "m2", [("R", 2)]⟩,
    ⟨"s3", "m3", [("R", 3)]⟩]

/-- The labels of all rows of the returned dataset triple. -/
def outLabels
    (o : Option (DCDataset × DCDataset × DCDataset ×
      NormalizationTransformer)) : List ℚ :=
  match o with
  | some (tr, va, te, _) => (tr ++ (va ++ te)).map (fun x => x.2.1)
  | none => []

/-- Counterexample to C4 as stated: the returned labels are normalized
(`(y - y_mean) / y_std`), so on receptor values 1, 2, 3 (none of them
zero, mean 2) the row with raw value 2 comes back with label exactly 0.0
— the dataset triple does contain a row whose label equals exactly 0.0.
(The std value is irrelevant here since the numerator is zero; `1` stands
in for the external `np.std`.) -/
theorem receptor_data_zero_label_counterexample :
    (0 : ℚ) ∈ outLabels (receptor_data (fun _ => 1)
      (fun _ n => List.range n) 0 dfC4 "R" (fun _ => []) 1) := by
  rw [show receptor_data (fun _ => 1) (fun _ n => List.range n) 0 dfC4 "R"
      (fun _ => []) 1
    = some ([([], -1, "s1"), ([], 0, "s2")], [], [([], 1, "s3")], ⟨2, 1⟩)
    from by
      simp [receptor_data, colRows, keptRows, normalizeDs, transformerOf,
        npSeed, dfC4, List.range_succ]
      norm_num]
  simp [outLabels]

/-- Witness for the amended C4 at the concrete 3-row table: the three
partitions concatenate to a permutation of the post-filter normalized
dataset. -/
theorem receptor_data_partition_witness :
    (([([], -1, "s1"), ([], 0, "s2")] ++ ([] ++ [([], 1, "s3")]))
        : DCDataset).Perm
      (normalizeDs (fun _ => 1) (fun _ => [])
        (keptRows [(⟨"s1", "m1", [("R", 1)]⟩, 1),
          (⟨"s2", "m2", [("R", 2)]⟩, 2), (⟨"s3", "m3", [("R", 3)]⟩, 3)])) :=
  (receptor_data_partition (fun _ => 1) (fun _ n => List.range n) 0 dfC4 "R"
    (fun _ => []) 1
    [(⟨"s1", "m1", [("R", 1)]⟩, 1), (⟨"s2", "m2", [("R", 2)]⟩, 2),
      (⟨"s3", "m3", [("R", 3)]⟩, 3)]
    [([], -1, "s1"), ([], 0, "s2")] [] [([], 1, "s3")] ⟨2, 1⟩
    (by simp [colRows, dfC4]) (List.Perm.refl _)
    (by
      simp [receptor_data, colRows, keptRows, normalizeDs, transformerOf,
        npSeed, dfC4, List.range_succ]
      norm_num)).1

/-! ## Seed setter (`set_seed`)

Whether each backend import-and-seed succeeds is an environment flag
(covering both a missing package and a rejected seed, e.g.
`np.random.seed` raising on `seed ≥ 2**32`).  A `try` block's outcome is
the list of seeding calls it executed together with an optional raised
exception; `set_seed` runs the three blocks in order and turns every
exception into a printed diagnostic (`except: print(...)`). -/

structure SeedEnv where
  tfOk : Bool
  torchOk : Bool
  cudaAvailable : Bool
  numpyOk : Bool
  randomOk : Bool
deriving Repr, DecidableEq

structure SeedTrace where
  calls : List (String × Nat)
  messages : List String
deriving Repr, DecidableEq

/-- The TensorFlow `try` block: nothing runs when the flag is false;
otherwise the import-and-seed either succeeds or raises. -/
def tfBlock (env : SeedEnv) (seed : Nat) (tensorflow : Bool) :
    List (String × Nat) × Option String :=
  if tensorflow then
    if env.tfOk then ([("tf.random.set_seed", seed)], none)
    else ([], some "tensorflow failure")
  else ([], none)

/-- The PyTorch `try` block, including the CUDA branch. -/
def torchBlock (env : SeedEnv) (seed : Nat) (pytorch : Bool) :
    List (String × Nat) × Option String :=
  if pytorch then
    if env.torchOk then
      ([("torch.manual_seed", seed)] ++
        (if env.cudaAvailable then
          [("torch.cuda.manual_seed_all", seed),
            ("cudnn.deterministic=True", seed),
            ("cudnn.benchmark=False", seed)]
        else []), none)
    else ([], some "torch failure")
  else ([], none)

/-- The third `try` block: numpy and the stdlib `random` module share it,
so a numpy failure raises before `random.seed(seed)` runs. -/
def numpyRandomBlock (env : SeedEnv) (seed : Nat) :
    List (String × Nat) × Option String :=
  if env.numpyOk then
    if env.randomOk then
      ([("np.random.seed", seed), ("random.seed", seed)], none)
    else ([("np.random.seed", seed)], some "random failure")
  else ([], some "numpy failure")

/-- `set_seed` from `utils.py`: three independent `try`/`except` blocks,
each failure caught and printed, never re-raised. -/
def set_seed (env : SeedEnv) (seed : Nat) (tensorflow pytorch : Bool) :
    SeedTrace :=
  let r1 := tfBlock env seed tensorflow
  let r2 := torchBlock env seed pytorch
  let r3 := numpyRandomBlock env seed
  { calls := r1.1 ++ r2.1 ++ r3.1,
    messages :=
      (match r1.2 with
        | some _ => ["Please import Tensorflow as tf to set its seed."]
        | none => []) ++
      ((match r2.2 with
        | some _ => ["Please import PyTorch to set its seed."]
        | none => []) ++
      (match r3.2 with
        | some _ =>
            ["You must import numpy as np and random to set up seeds."]
        | none => [])) }

/-- Counterexample to C9 as stated: when the base numeric library's
seeding fails (e.g. `np.random.seed(2**32)` raises `ValueError` while
`random.seed` would accept the seed), the general-purpose pseudo-random
generator is never attempted, because the two share one `try` block — a
failure of one backend does prevent a remaining backend from being
attempted. -/
theorem set_seed_isolation_counterexample :
    ("random.seed", 42) ∉
      (set_seed ⟨true, true, false, false, true⟩ 42 true true).calls ∧
    "You must import numpy as np and random to set up seeds." ∈
      (set_seed ⟨true, true, false, false, true⟩ 42 true true).messages := by
  decide

/-- Claim C9, amended: no block's failure ever propagates — each failure
becomes exactly its printed diagnostic; the PyTorch block and the
numpy+random block do not depend on the earlier backends' availability
(TensorFlow failing cannot prevent them); the numpy+random block runs
regardless of the two backend flags.  However, numpy and the stdlib
`random` module share a single `try` block, so a numpy seeding failure
skips `random.seed` (this is the one exception to per-backend isolation;
see the counterexample). -/
theorem set_seed_isolated_failures (env : SeedEnv) (seed : Nat)
    (tensorflow pytorch : Bool) :
    (set_seed env seed tensorflow pytorch).calls
      = (tfBlock env seed tensorflow).1 ++ (torchBlock env seed pytorch).1
        ++ (numpyRandomBlock env seed).1 ∧
    ((tfBlock env seed tensorflow).2.isSome = true →
      "Please import Tensorflow as tf to set its seed."
        ∈ (set_seed env seed tensorflow pytorch).messages) ∧
    ((torchBlock env seed pytorch).2.isSome = true →
      "Please import PyTorch to set its seed."
        ∈ (set_seed env seed tensorflow pytorch).messages) ∧
    ((numpyRandomBlock env seed).2.isSome = true →
      "You must import numpy as np and random to set up seeds."
        ∈ (set_seed env seed tensorflow pytorch).messages) ∧
    (∀ b : Bool,
      torchBlock { env with tfOk := b } seed pytorch
        = torchBlock env seed pytorch) ∧
    (∀ b1 b2 : Bool,
      numpyRandomBlock { env with tfOk := b1, torchOk := b2 } seed
        = numpyRandomBlock env seed) ∧
    (env.numpyOk = true →
      ("np.random.seed", seed)
        ∈ (set_seed env seed tensorflow pytorch).calls) ∧
    (env.numpyOk = false →
      ("random.seed", seed)
        ∉ (set_seed env seed tensorflow pytorch).calls) := by
  refine ⟨rfl, ?_, ?_, ?_, ?_, ?_, ?_, ?_⟩
  · intro h
    rcases heq : (tfBlock env seed tensorflow).2 with _ | m
    · rw [heq] at h
      simp at h
    · simp [set_seed, heq]
  · intro h
    rcases heq : (torchBlock env seed pytorch).2 with _ | m
    · rw [heq] at h
      simp at h
    · simp [set_seed, heq]
  · intro h
    rcases heq : (numpyRandomBlock env seed).2 with _ | m
    · rw [heq] at h
      simp at h
    · simp [set_seed, heq]
  · intro b
    rcases env with ⟨etf, eto, ecu, enp, erd⟩
    rfl
  · intro b1 b2
    rcases env with ⟨etf, eto, ecu, enp, erd⟩
    rfl
  · intro h
    by_cases hr : env.randomOk = true <;>
      simp [set_seed, numpyRandomBlock, h, hr]
  · intro h
    rcases env with ⟨etf, eto, ecu, enp, erd⟩
    simp only at h
    subst h
    cases tensorflow <;> cases pytorch <;> cases etf <;> cases eto <;>
      cases ecu <;>
      simp [set_seed, tfBlock, torchBlock, numpyRandomBlock]

/-- Witness for the amended C9 at a concrete input: with every backend
available, the base numeric library is seeded. -/
theorem set_seed_isolated_failures_witness :
    ("np.random.seed", 7)
      ∈ (set_seed ⟨true, true, true, true, true⟩ 7 true true).calls :=
  (set_seed_isolated_failures ⟨true, true, true, true, true⟩ 7
    true true).2.2.2.2.2.2.1 rfl

/-! ## Plotting helpers (`plot_predictions`, `plot_validation`) -/

inductive PyErr where
  | nameError (name : String)
  | valueError (msg : String)
deriving Repr, DecidableEq

/-- The names bound at module scope in `utils.py` (the two imports and
the five function definitions).  `metric` is not among them. -/
def moduleScope : List String :=
  ["pd", "dc", "load_data", "receptor_data", "set_seed", "fit_best_model",
    "plot_predictions", "plot_validation"]

/-- `plot_validation(trained_model)`: builds the three column lists and
draws the two curves, then labels the axes with `metric.name` — but
`metric` is a free name there, resolved against module scope, where it is
not bound; the subsequent `xticks` line would additionally need a
non-empty epoch list for `min`/`max`. -/
def plot_validation (trained_model : List (Nat × ℚ × ℚ)) :
    Except PyErr Unit :=
  let epochs := trained_model.map (fun x => x.1)
  let _valid_scores := trained_model.map (fun x => x.2.1)
  let _train_scores := trained_model.map (fun x => x.2.2)
  if moduleScope.contains "metric" then
    if epochs.isEmpty then
      .error (.valueError "min() arg is an empty sequence")
    else .ok ()
  else .error (.nameError "metric")

/-- `plot_predictions(model, training_data, test_data, transformer)`:
predictions and un-transformed true values are computed and
scatter-plotted; every name it uses is bound, so it returns. -/
def plot_predictions
    (predict : DCDataset → NormalizationTransformer → List ℚ)
    (training_data test_data : DCDataset)
    (transformer : NormalizationTransformer) : Except PyErr Unit :=
  let _train_preds := predict training_data transformer
  let _test_preds := predict test_data transformer
  let untransform := fun (q : ℚ) => q * transformer.yStd + transformer.yMean
  let _train_plot := (training_data.map (fun x => x.2.1)).map untransform
  let _test_plot := (test_data.map (fun x => x.2.1)).map untransform
  .ok ()

/-- Claim C8 is a code bug: `plot_validation` raises
`NameError: name 'metric' is not defined` on every input, even a valid
non-empty score history, because line 202 reads `metric.name` and no
`metric` is bound in the function or at module scope; `plot_predictions`
does return normally on every input. -/
theorem plot_validation_name_error :
    (∀ trained_model, plot_validation trained_model
      = Except.error (PyErr.nameError "metric")) ∧
    (∀ predict training_data test_data transformer,
      plot_predictions predict training_data test_data transformer
        = Except.ok ()) := by
  constructor
  · intro trained_model
    simp [plot_validation, moduleScope]
  · intro predict training_data test_data transformer
    rfl
